import Mathlib

/-!
# Verification of the glimmer-vm opcode builder and rehydration core

Shallow embedding of `src/packages/@glimmer/runtime/lib/compiled/opcodes/builder.ts`
(the bytecode compiler surface: label scopes, patching, local-register
allocation, primitive-literal encoding, component invocation) and of the
rehydration algorithm described by the specification (whose implementation is
exercised, but not contained, by the test file in the repository).

JavaScript numbers that can be `undefined`/`NaN` are embedded as `Option Int`
(`none` standing for the non-ordinary values); 32-bit bitwise operations are
embedded as arithmetic on `Nat` bit patterns with an explicit conversion to
the signed 32-bit integer range.
-/

set_option autoImplicit false

namespace Glimmer

/-! ## JavaScript 32-bit numerics -/

/-- Bit pattern (as a `Nat` below `2^32`) of a JS number after `ToInt32`. -/
def bits32 (z : Int) : Nat := (z % (2 ^ 32 : Int)).toNat

/-- Signed 32-bit integer denoted by a bit pattern (inverse of `bits32`). -/
def int32 (n : Nat) : Int :=
  if n % 2 ^ 32 < 2 ^ 31 then ((n % 2 ^ 32 : Nat) : Int)
  else ((n % 2 ^ 32 : Nat) : Int) - 2 ^ 32

/-- JS `a << k` on 32-bit integers. -/
def jsShl (a : Int) (k : Nat) : Int := int32 (bits32 a <<< k)

/-- JS `a | b` on 32-bit integers. -/
def jsOr (a b : Int) : Int := int32 (bits32 a ||| bits32 b)

/-- A JS number slot: `none` models `undefined`/`NaN`. -/
abbrev JsNum := Option Int

/-- JS subtraction against a possibly-undefined left operand:
`undefined - k` is `NaN`, modelled as `none`. -/
def jsSub (x : JsNum) (k : Int) : JsNum := x.map (· - k)

/-! ## Opcodes and the program buffer -/

/-- The opcode names used by the builder (`Op` from `../../opcodes`). Only the
symbolic names matter to the builder; their numeric codes are not observable
in the embedded fragment. -/
inductive Op where
  | ReserveLocals | ReleaseLocals
  | Jump | JumpIf | JumpUnless
  | Enter | EnterList | Iterate | Exit | ExitList
  | Primitive | Constant
  | Text | Comment | OpenElement
  | PushBlock | PushBlocks
  | SetComponentState | PushDynamicScope | PopDynamicScope
  | PushComponentArgs | CreateComponent | RegisterComponentDestructor
  | BeginComponentTransaction | CommitComponentTransaction
  | GetComponentSelf | GetComponentLayout | InvokeDynamic
  | DidCreateElement | DidRenderLayout
  | PopScope | Pop
  deriving DecidableEq, Repr

/-- One fixed-width instruction: an opcode plus three operand slots. -/
structure Instr where
  name : Op
  op1 : JsNum := some 0
  op2 : JsNum := some 0
  op3 : JsNum := some 0
  deriving DecidableEq, Repr

/-- Modelled from the spec: the Program Buffer (§2.2) — a linear stream of
fixed-width instructions (opcode + up to three operands), mutable until
finalized, position-addressable.  Each instruction occupies four address
units, so the instruction stored at list index `i` sits at address `4 * i`;
`next` is the address one past the last instruction.  The concrete
`Program` class lives outside `src/` (`../../environment`). -/
structure Program where
  opcodes : List Instr := []
  deriving DecidableEq, Repr

/-- Address of the next instruction to be pushed. -/
def Program.next (p : Program) : Nat := 4 * p.opcodes.length

/-- Address of the most recently pushed instruction (`current`); meaningful
only after at least one push, which the builder constructor guarantees. -/
def Program.current (p : Program) : Nat := p.next - 4

/-- Append one instruction, returning the new buffer and the address at which
the instruction was placed. -/
def Program.push (p : Program) (i : Instr) : Program × Nat :=
  ({ opcodes := p.opcodes ++ [i] }, p.next)

/-- Overwrite the instruction at address `pos` (a multiple of four). -/
def Program.set (p : Program) (pos : Nat) (i : Instr) : Program :=
  { opcodes := p.opcodes.set (pos / 4) i }

/-! ## The constant pool -/

/-- Modelled from the spec: the Constant Pool (§2.1) — deduplicated storage
for strings and opaque references, indexed by small integer handles (handles
are positive so that `0` can mean "absent").  The concrete `Constants` class
lives outside `src/` (`../../opcodes`). -/
structure Constants where
  strings : List String := []
  others : Nat := 0
  blocks : Nat := 0
  funcs : Nat := 0
  deriving DecidableEq, Repr

/-- Intern a string: identical content yields the same handle. -/
def Constants.string (c : Constants) (s : String) : Constants × Nat :=
  match c.strings.indexOf? s with
  | some i => (c, i + 1)
  | none => ({ c with strings := c.strings ++ [s] }, c.strings.length + 1)

/-- Store an opaque value, returning a fresh handle. -/
def Constants.other (c : Constants) : Constants × Nat :=
  ({ c with others := c.others + 1 }, c.others + 1)

/-- Store a compiled-block reference, returning a fresh handle. -/
def Constants.block (c : Constants) : Constants × Nat :=
  ({ c with blocks := c.blocks + 1 }, c.blocks + 1)

/-! ## Label bookkeeping (`class Labels`) -/

/-- A recorded jump site: `{ at, target, Target }`. -/
structure JumpEntry where
  atPos : Nat
  Target : Op
  target : String
  deriving DecidableEq, Repr

/-- A recorded range site: `{ at, start, end, Range }`. -/
structure RangeEntry where
  atPos : Nat
  Range : Op
  start : String
  stop : String
  deriving DecidableEq, Repr

/-- A recorded iterate site: `{ at, breaks, start, end }`. -/
structure IterEntry where
  atPos : Nat
  breaks : String
  start : String
  stop : String
  deriving DecidableEq, Repr

/-- `class Labels`: placed labels (a dict, latest assignment wins) plus the
recorded jump/range/iterate sites awaiting patching. -/
structure Labels where
  labels : List (String × Nat) := []
  jumps : List JumpEntry := []
  ranges : List RangeEntry := []
  iters : List IterEntry := []
  deriving DecidableEq, Repr

/-- `label(name, index)`: dict assignment (overwrite). -/
def Labels.label (l : Labels) (name : String) (index : Nat) : Labels :=
  { l with labels := (name, index) :: l.labels }

/-- `jump(at, Target, target)`. -/
def Labels.jump (l : Labels) (atPos : Nat) (Target : Op) (target : String) : Labels :=
  { l with jumps := l.jumps ++ [⟨atPos, Target, target⟩] }

/-- `range(at, Range, start, end)`. -/
def Labels.range (l : Labels) (atPos : Nat) (Range : Op) (start stop : String) : Labels :=
  { l with ranges := l.ranges ++ [⟨atPos, Range, start, stop⟩] }

/-- `iter(at, breaks, start, end)`. -/
def Labels.iter (l : Labels) (atPos : Nat) (breaks start stop : String) : Labels :=
  { l with iters := l.iters ++ [⟨atPos, breaks, start, stop⟩] }

/-- `this.labels[name]` as a JS number: `undefined` (`none`) when the label
was never placed. -/
def Labels.lookup (l : Labels) (name : String) : JsNum :=
  (l.labels.lookup name).map Int.ofNat

/-- `patch(opcodes)`: write every recorded jump with the target label's
offset, every range with `(start, end - 4)` and every iterate with
`(breaks, start, end - 4)`.  A never-placed label patches as `undefined`. -/
def Labels.patch (l : Labels) (p : Program) : Program :=
  let p1 := l.jumps.foldl
    (fun p e => p.set e.atPos ⟨e.Target, l.lookup e.target, some 0, some 0⟩) p
  let p2 := l.ranges.foldl
    (fun p e => p.set e.atPos ⟨e.Range, l.lookup e.start, jsSub (l.lookup e.stop) 4, some 0⟩) p1
  l.iters.foldl
    (fun p e => p.set e.atPos ⟨.Iterate, l.lookup e.breaks, l.lookup e.start,
      jsSub (l.lookup e.stop) 4⟩) p2

/-! ## The opcode builder (`BasicOpcodeBuilder`) -/

/-- The mutable state of `BasicOpcodeBuilder`: the label-scope stack (head =
innermost scope), constant pool, reserved start position, local-register
counter and its high-water mark, and the program buffer. -/
structure BasicOpcodeBuilder where
  labelsStack : List Labels
  constants : Constants
  start : Nat
  locals : Int
  localsSize : Int
  program : Program
  deriving DecidableEq, Repr

namespace BasicOpcodeBuilder

/-- The constructor: record `start := program.next`, then reserve one slot
there with `ReserveLocals`. -/
def init (c : Constants) (p : Program) : BasicOpcodeBuilder :=
  { labelsStack := []
    constants := c
    start := p.next
    locals := 0
    localsSize := 0
    program := (p.push ⟨.ReserveLocals, some 0, some 0, some 0⟩).1 }

/-- `push(name, op1, op2, op3)` (result index unused by most callers). -/
def push (b : BasicOpcodeBuilder) (i : Instr) : BasicOpcodeBuilder :=
  { b with program := (b.program.push i).1 }

/-- `reserve(name)`: push with all-zero operands, to be patched later. -/
def reserve (b : BasicOpcodeBuilder) (name : Op) : BasicOpcodeBuilder :=
  b.push ⟨name, some 0, some 0, some 0⟩

/-- `this.pos` (`program.current`): address of the most recent instruction. -/
def pos (b : BasicOpcodeBuilder) : Nat := b.program.current

/-- `this.nextPos` (`program.next`). -/
def nextPos (b : BasicOpcodeBuilder) : Nat := b.program.next

/-- `local()`: return the counter, increment it, and raise the high-water
mark when the incremented counter exceeds it. -/
def localReg (b : BasicOpcodeBuilder) : BasicOpcodeBuilder × Int :=
  ({ b with
      locals := b.locals + 1
      localsSize := if b.localsSize < b.locals + 1 then b.locals + 1 else b.localsSize },
    b.locals)

/-- `releaseLocal()`: decrement the counter, with no check of pairing. -/
def releaseLocal (b : BasicOpcodeBuilder) : BasicOpcodeBuilder :=
  { b with locals := b.locals - 1 }

/-- `finalize()`: write the high-water mark into the reserved head slot and
append the cleanup instruction. -/
def finalize (b : BasicOpcodeBuilder) : BasicOpcodeBuilder :=
  let b := { b with
    program := b.program.set b.start ⟨.ReserveLocals, some b.localsSize, some 0, some 0⟩ }
  b.push ⟨.ReleaseLocals, some 0, some 0, some 0⟩

/-- `startLabels()`: open a fresh label scope. -/
def startLabels (b : BasicOpcodeBuilder) : BasicOpcodeBuilder :=
  { b with labelsStack := {} :: b.labelsStack }

/-- `stopLabels()`: pop the innermost scope (an `expect`-guarded fault when
none is open) and patch the program with its recorded sites. -/
def stopLabels (b : BasicOpcodeBuilder) : Except String BasicOpcodeBuilder :=
  match b.labelsStack with
  | [] => .error "unbalanced push and pop labels"
  | l :: rest => .ok { b with labelsStack := rest, program := l.patch b.program }

/-- The private `labels` getter applied as an update: an `expect`-guarded
fault when no label scope is open. -/
def withLabels (b : BasicOpcodeBuilder) (f : Labels → Labels) :
    Except String BasicOpcodeBuilder :=
  match b.labelsStack with
  | [] => .error "bug: not in a label stack"
  | l :: rest => .ok { b with labelsStack := f l :: rest }

/-- `label(name)`: record the name at `nextPos` in the innermost scope. -/
def label (b : BasicOpcodeBuilder) (name : String) : Except String BasicOpcodeBuilder :=
  b.withLabels (·.label name b.nextPos)

/-- `jump(target)` — and, with the other opcodes, `jumpIf`/`jumpUnless`:
reserve a slot, then record it as a jump site in the innermost scope. -/
def jump (b : BasicOpcodeBuilder) (Target : Op) (target : String) :
    Except String BasicOpcodeBuilder :=
  let b := b.reserve Target
  b.withLabels (·.jump b.pos Target target)

/-- `enter(enter, exit)` / `enterList(start, end)`: reserve a slot, then
record it as a range site in the innermost scope. -/
def enter (b : BasicOpcodeBuilder) (Range : Op) (start stop : String) :
    Except String BasicOpcodeBuilder :=
  let b := b.reserve Range
  b.withLabels (·.range b.pos Range start stop)

/-- `iterate(breaks, start, end)`: reserve a slot, then record it as an
iterate site in the innermost scope. -/
def iterate (b : BasicOpcodeBuilder) (breaks start stop : String) :
    Except String BasicOpcodeBuilder :=
  let b := b.reserve .Iterate
  b.withLabels (·.iter b.pos breaks start stop)

/-- `text(text)`. -/
def text (b : BasicOpcodeBuilder) (s : String) : BasicOpcodeBuilder :=
  let (c, h) := b.constants.string s
  { b with constants := c }.push ⟨.Text, some h, some 0, some 0⟩

/-- `setComponentState(local)`. -/
def setComponentState (b : BasicOpcodeBuilder) (l : Int) : BasicOpcodeBuilder :=
  b.push ⟨.SetComponentState, some l, some 0, some 0⟩

/-- `pushBlock(block)`: handle `0` for a missing block. -/
def pushBlock (b : BasicOpcodeBuilder) (block : Option Unit) : BasicOpcodeBuilder :=
  match block with
  | none => b.push ⟨.PushBlock, some 0, some 0, some 0⟩
  | some _ =>
    let (c, h) := b.constants.block
    { b with constants := c }.push ⟨.PushBlock, some h, some 0, some 0⟩

/-- `pushDynamicScope()`. -/
def pushDynamicScope (b : BasicOpcodeBuilder) : BasicOpcodeBuilder :=
  b.push ⟨.PushDynamicScope, some 0, some 0, some 0⟩

/-- `popDynamicScope()`. -/
def popDynamicScope (b : BasicOpcodeBuilder) : BasicOpcodeBuilder :=
  b.push ⟨.PopDynamicScope, some 0, some 0, some 0⟩

/-- `popScope()`. -/
def popScope (b : BasicOpcodeBuilder) : BasicOpcodeBuilder :=
  b.push ⟨.PopScope, some 0, some 0, some 0⟩

/-- `pushComponentArgs(positional, named, namedDict)`: the named-slot dict is
stored in the opaque constant pool. -/
def pushComponentArgs (b : BasicOpcodeBuilder) (positional named : Int) : BasicOpcodeBuilder :=
  let (c, h) := b.constants.other
  { b with constants := c }.push ⟨.PushComponentArgs, some positional, some named, some h⟩

/-- `createComponent(state, hasDefault, hasInverse)`:
`flag = (hasDefault|0) | ((hasInverse|0) << 1)`. -/
def createComponent (b : BasicOpcodeBuilder) (state : Int) (hasDefault hasInverse : Bool) :
    BasicOpcodeBuilder :=
  let flag : Int := (if hasDefault then 1 else 0) + 2 * (if hasInverse then 1 else 0)
  b.push ⟨.CreateComponent, some flag, some state, some 0⟩

/-- `registerComponentDestructor(state)`. -/
def registerComponentDestructor (b : BasicOpcodeBuilder) (state : Int) : BasicOpcodeBuilder :=
  b.push ⟨.RegisterComponentDestructor, some state, some 0, some 0⟩

/-- `beginComponentTransaction()`. -/
def beginComponentTransaction (b : BasicOpcodeBuilder) : BasicOpcodeBuilder :=
  b.push ⟨.BeginComponentTransaction, some 0, some 0, some 0⟩

/-- `commitComponentTransaction()`. -/
def commitComponentTransaction (b : BasicOpcodeBuilder) : BasicOpcodeBuilder :=
  b.push ⟨.CommitComponentTransaction, some 0, some 0, some 0⟩

/-- `getComponentSelf(state)`. -/
def getComponentSelf (b : BasicOpcodeBuilder) (state : Int) : BasicOpcodeBuilder :=
  b.push ⟨.GetComponentSelf, some state, some 0, some 0⟩

/-- `getComponentLayout(state)`. -/
def getComponentLayout (b : BasicOpcodeBuilder) (state : Int) : BasicOpcodeBuilder :=
  b.push ⟨.GetComponentLayout, some state, some 0, some 0⟩

/-- `invokeDynamic(invoker)`: the invoker object is stored in the opaque
constant pool. -/
def invokeDynamic (b : BasicOpcodeBuilder) : BasicOpcodeBuilder :=
  let (c, h) := b.constants.other
  { b with constants := c }.push ⟨.InvokeDynamic, some h, some 0, some 0⟩

/-- `didCreateElement(state)`. -/
def didCreateElement (b : BasicOpcodeBuilder) (state : Int) : BasicOpcodeBuilder :=
  b.push ⟨.DidCreateElement, some state, some 0, some 0⟩

/-- `didRenderLayout(state)`. -/
def didRenderLayout (b : BasicOpcodeBuilder) (state : Int) : BasicOpcodeBuilder :=
  b.push ⟨.DidRenderLayout, some state, some 0, some 0⟩

end BasicOpcodeBuilder

/-! ## Primitive-literal encoding -/

/-- The runtime type of a value passed to `primitive()`, classified the way
the source's `typeof` switch observes it.  The TypeScript signature admits
`string | number | null | undefined | boolean`, but at runtime the switch
sees only `typeof` strings: `obj` stands for a non-null object (its `typeof`
is `'object'`, exactly like `null`'s, so it reaches the `case 'object'`
branch that is commented `// assume null`), and `other` for a value whose
`typeof` is none of the handled strings (symbol, function), which reaches
the `default` branch. -/
inductive JsPrim where
  | num (n : Int)
  | str (s : String)
  | bool (b : Bool)
  | null
  | obj
  | undef
  | other
  deriving DecidableEq, Repr

/-- `primitive(_primitive)`: the `typeof` switch.  Numbers carry flag `0`,
interned strings flag `1`, boolean/null/undefined flag `2` with payloads
`0/1`, `2`, `3`.  The `case 'object'` branch assumes null, so a non-null
object is silently encoded exactly like `null`; only a `typeof` outside the
handled strings is a fatal compile error.  The operand is
`(flag << 30) | primitive` on 32-bit integers. -/
def BasicOpcodeBuilder.primitive (b : BasicOpcodeBuilder) (v : JsPrim) :
    Except String BasicOpcodeBuilder :=
  match v with
  | .num n =>
    .ok (b.push ⟨.Primitive, some (jsOr (jsShl 0 30) n), some 0, some 0⟩)
  | .str s =>
    let (c, h) := b.constants.string s
    .ok ({ b with constants := c }.push
      ⟨.Primitive, some (jsOr (jsShl 1 30) (h : Int)), some 0, some 0⟩)
  | .bool tf =>
    .ok (b.push ⟨.Primitive, some (jsOr (jsShl 2 30) (if tf then 1 else 0)), some 0, some 0⟩)
  | .null =>
    .ok (b.push ⟨.Primitive, some (jsOr (jsShl 2 30) 2), some 0, some 0⟩)
  | .obj =>
    .ok (b.push ⟨.Primitive, some (jsOr (jsShl 2 30) 2), some 0, some 0⟩)
  | .undef =>
    .ok (b.push ⟨.Primitive, some (jsOr (jsShl 2 30) 3), some 0, some 0⟩)
  | .other => .error "Invalid primitive passed to pushPrimitive"

/-! ## Component invocation (`OpcodeBuilder.invokeComponent`) -/

/-- `OpcodeBuilder.invokeComponent(attrs, _params, hash, block, inverse)`.
The call to `compileComponentArgs(hash, this)` (defined outside the embedded
fragment, in `../../syntax/functions`) is passed in as `compileArgs`, which
may emit instructions and returns the named-argument `count`. -/
def OpcodeBuilder.invokeComponent
    (compileArgs : BasicOpcodeBuilder → BasicOpcodeBuilder × Int)
    (block inverse : Option Unit) (b : BasicOpcodeBuilder) : BasicOpcodeBuilder :=
  let (b, state) := b.localReg
  let b := b.setComponentState state
  let b := b.pushBlock block
  let b := b.pushBlock inverse
  let (b, count) := compileArgs b
  let b := b.pushDynamicScope
  let b := b.pushComponentArgs 0 count
  let b := b.createComponent state true false
  let b := b.registerComponentDestructor state
  let b := b.beginComponentTransaction
  let b := b.getComponentSelf state
  let b := b.getComponentLayout state
  let b := b.invokeDynamic
  let b := b.didCreateElement state
  let b := b.didRenderLayout state
  let b := b.popScope
  let b := b.popDynamicScope
  let b := b.commitComponentTransaction
  b.releaseLocal

/-! ## Compilation traces

A compilation is an arbitrary sequence of builder-method calls between
construction and `finalize`.  The trace alphabet below covers the methods of
the embedded fragment; running a trace threads the builder state through the
calls, stopping at the first compile-time fault. -/

/-- One builder-method call. -/
inductive BOp where
  | emit (name : Op)
  | textOp (s : String)
  | localOp
  | releaseLocalOp
  | startLabelsOp
  | stopLabelsOp
  | labelOp (s : String)
  | jumpOp (s : String)
  | enterOp (a b : String)
  | iterateOp (a b c : String)
  | primitiveOp (v : JsPrim)
  deriving DecidableEq, Repr

/-- Apply one builder-method call to the builder state. -/
def BOp.apply : BOp → BasicOpcodeBuilder → Except String BasicOpcodeBuilder
  | .emit n, b => .ok (b.push ⟨n, some 0, some 0, some 0⟩)
  | .textOp s, b => .ok (b.text s)
  | .localOp, b => .ok b.localReg.1
  | .releaseLocalOp, b => .ok b.releaseLocal
  | .startLabelsOp, b => .ok b.startLabels
  | .stopLabelsOp, b => b.stopLabels
  | .labelOp s, b => b.label s
  | .jumpOp s, b => b.jump .Jump s
  | .enterOp x y, b => b.enter .Enter x y
  | .iterateOp x y z, b => b.iterate x y z
  | .primitiveOp v, b => b.primitive v

/-- Run a trace of builder-method calls. -/
def runOps : List BOp → BasicOpcodeBuilder → Except String BasicOpcodeBuilder
  | [], b => .ok b
  | e :: es, b => (e.apply b).bind (runOps es)

/-- The effect of one call on the live-locals counter. -/
def BOp.delta : BOp → Int
  | .localOp => 1
  | .releaseLocalOp => -1
  | _ => 0

/-- Running maximum of the live-locals counter over all points of a trace,
starting from counter value `cur`: the high-water mark of simultaneously
allocated locals. -/
def highWater : List BOp → Int → Int
  | [], cur => cur
  | e :: es, cur => max cur (highWater es (cur + e.delta))

/-! ## The writes performed by `Labels.patch` -/

/-- The list of `(address, instruction)` writes that `patch` performs, in
execution order: jumps, then ranges, then iterates. -/
def Labels.patchWrites (l : Labels) : List (Nat × Instr) :=
  l.jumps.map (fun e => (e.atPos, ⟨e.Target, l.lookup e.target, some 0, some 0⟩)) ++
  l.ranges.map (fun e =>
    (e.atPos, ⟨e.Range, l.lookup e.start, jsSub (l.lookup e.stop) 4, some 0⟩)) ++
  l.iters.map (fun e =>
    (e.atPos, ⟨.Iterate, l.lookup e.breaks, l.lookup e.start, jsSub (l.lookup e.stop) 4⟩))

/-- Perform a list of writes in order. -/
def applyWrites (p : Program) (ws : List (Nat × Instr)) : Program :=
  ws.foldl (fun p w => p.set w.1 w.2) p

/-! ## Rehydration

Modelled from the spec: the Create and Rehydrate tree-building strategies and
the marker-protocol reconciliation algorithm (§4.3–§4.4).  The repository
contains only the test suite for this algorithm; the strategies themselves
(`RehydrationDelegate`, the serializing and rehydrating tree builders) live
outside `src/`.

A template unit is a sequence of static text, dynamic text (`{{key}}`),
elements with static attributes, and conditional blocks (the dynamic regions
whose node count can vary and which are therefore bounded by comment-marker
pairs).  A context maps names to string or boolean values.  Create-mode
rendering emits a node list; rehydration walks an existing node list with a
cursor, adopting matches, repairing changed values in place, removing
mismatched nodes, and sweeping stale remainders at each region boundary,
counting every removed node. -/

/-- A rendered document node. -/
inductive DNode where
  | text (s : String)
  | comment (s : String)
  | elem (tag : String) (attrs : List (String × String)) (children : List DNode)

/-- A context value: dynamic text content or a conditional flag. -/
inductive CtxVal where
  | s (v : String)
  | b (v : Bool)
  deriving DecidableEq, Repr

/-- A render context. -/
abbrev Ctx := List (String × CtxVal)

/-- String value of a context entry (empty when absent or boolean). -/
def ctxStr (c : Ctx) (k : String) : String :=
  match c.lookup k with
  | some (.s v) => v
  | _ => ""

/-- Truthiness of a context entry. -/
def ctxBool (c : Ctx) (k : String) : Bool :=
  match c.lookup k with
  | some (.b v) => v
  | some (.s v) => v ≠ ""
  | none => false

/-- A template unit: static text, a dynamic text curly, an element with
static attributes, a conditional block, or sequencing. -/
inductive Tmpl where
  | empty
  | seq (a b : Tmpl)
  | text (s : String)
  | curly (k : String)
  | elem (tag : String) (attrs : List (String × String)) (child : Tmpl)
  | iff (k : String) (thn els : Tmpl)
  deriving DecidableEq, Repr

/-- The reserved start-marker comment text. -/
def openMarker : String := "%+b%"

/-- The reserved end-marker comment text. -/
def closeMarker : String := "%-b%"

/-- Modelled from the spec: Create-mode rendering (§4.3) — every call
allocates new nodes; a dynamic region whose node count can vary (a
conditional block) is bounded by a comment-marker pair, while a region
guaranteed to resolve to exactly one node (text, curly, element) omits
markers (§3, block marker pair). -/
def create (t : Tmpl) (c : Ctx) : List DNode :=
  match t with
  | .empty => []
  | .seq a b => create a c ++ create b c
  | .text s => [.text s]
  | .curly k => [.text (ctxStr c k)]
  | .elem tag attrs child => [.elem tag attrs (create child c)]
  | .iff k thn els =>
    .comment openMarker ::
      ((if ctxBool c k then create thn c else create els c) ++ [.comment closeMarker])

/-- Scan forward for the end marker closing the region the cursor is in
(depth-counting across nested marker pairs), returning the nodes strictly
inside the region and the nodes after the end marker. -/
def splitRegion (d : Nat) : List DNode → Option (List DNode × List DNode)
  | [] => none
  | .comment m :: rest =>
    if m = openMarker then
      (splitRegion (d + 1) rest).map (fun r => (.comment m :: r.1, r.2))
    else if m = closeMarker then
      match d with
      | 0 => some ([], rest)
      | d + 1 => (splitRegion d rest).map (fun r => (.comment m :: r.1, r.2))
    else
      (splitRegion d rest).map (fun r => (.comment m :: r.1, r.2))
  | n :: rest => (splitRegion d rest).map (fun r => (n :: r.1, r.2))

/-- Modelled from the spec: Rehydrate-mode rendering (§4.3–§4.4).  Walk the
existing node list with a cursor; on a match adopt the node (repairing its
text or attribute values in place); on a mismatch remove the unmatched node
(counting it) and fall through to Create semantics; when a bounded region
(an element's children or a marker pair) is left, sweep remaining
unconsumed nodes as a stale remainder, counting each.  Markers are consumed
(cleared), not re-emitted.  Result: `(output nodes, removed count, remaining
input nodes)`. -/
def rehydrate : Tmpl → Ctx → List DNode → List DNode × Nat × List DNode
  | .empty, _, ns => ([], 0, ns)
  | .seq a b, c, ns =>
    let r1 := rehydrate a c ns
    let r2 := rehydrate b c r1.2.2
    (r1.1 ++ r2.1, r1.2.1 + r2.2.1, r2.2.2)
  | .text s, _, ns =>
    match ns with
    | .text _ :: rest => ([.text s], 0, rest)
    | [] => ([.text s], 0, [])
    | _ :: rest => ([.text s], 1, rest)
  | .curly k, c, ns =>
    match ns with
    | .text _ :: rest => ([.text (ctxStr c k)], 0, rest)
    | [] => ([.text (ctxStr c k)], 0, [])
    | _ :: rest => ([.text (ctxStr c k)], 1, rest)
  | .elem tag attrs child, c, ns =>
    match ns with
    | .elem tag2 _ cs :: rest =>
      if tag = tag2 then
        let r := rehydrate child c cs
        ([.elem tag attrs r.1], r.2.1 + r.2.2.length, rest)
      else ([.elem tag attrs (create child c)], 1, rest)
    | [] => ([.elem tag attrs (create child c)], 0, [])
    | _ :: rest => ([.elem tag attrs (create child c)], 1, rest)
  | .iff k thn els, c, ns =>
    match ns with
    | .comment m :: rest =>
      if m = openMarker then
        match splitRegion 0 rest with
        | some r =>
          let r2 := if ctxBool c k then rehydrate thn c r.1 else rehydrate els c r.1
          (r2.1, r2.2.1 + r2.2.2.length, r.2)
        | none =>
          ((if ctxBool c k then create thn c else create els c), 0, .comment m :: rest)
      else
        ((if ctxBool c k then create thn c else create els c), 0, .comment m :: rest)
    | ns =>
      ((if ctxBool c k then create thn c else create els c), 0, ns)

/-- One whole rehydration pass: run the cursor over the pre-existing tree and
sweep whatever it did not consume at top level.  Result: final node list and
total removed-node count. -/
def rehydrateTop (t : Tmpl) (c : Ctx) (ns : List DNode) : List DNode × Nat :=
  let r := rehydrate t c ns
  (r.1, r.2.1 + r.2.2.length)

/-- Erase comment nodes (markers) everywhere: what remains is exactly the
structure the spec compares — tags, attributes, text. -/
def strip : List DNode → List DNode
  | [] => []
  | .comment _ :: rest => strip rest
  | .text s :: rest => .text s :: strip rest
  | .elem t a cs :: rest => .elem t a (strip cs) :: strip rest

/-- Node lists whose top-level markers are balanced and properly nested —
the marker-balance invariant of Create-mode output. -/
inductive Neutral : List DNode → Prop where
  | nil : Neutral []
  | consText (s : String) {xs : List DNode} : Neutral xs → Neutral (.text s :: xs)
  | consElem (t : String) (a : List (String × String)) (cs : List DNode) {xs : List DNode} :
      Neutral xs → Neutral (.elem t a cs :: xs)
  | consRegion {ins xs : List DNode} : Neutral ins → Neutral xs →
      Neutral (.comment openMarker :: (ins ++ .comment closeMarker :: xs))

/-- The builder run refuting C3: open one label scope, record a jump to a
label that is never placed, and close the scope. -/
def unresolvedJumpRun : Except String BasicOpcodeBuilder :=
  ((BasicOpcodeBuilder.init {} {}).startLabels.jump .Jump "MISSING").bind
    BasicOpcodeBuilder.stopLabels

/-- A concrete scope for the C10 witness: labels `S` at 16 and `E` at 28,
one jump at 4, one range at 8, one iterate at 12. -/
def sampleLabels : Labels :=
  { labels := [("S", 16), ("E", 28)]
    jumps := [⟨4, .Jump, "S"⟩]
    ranges := [⟨8, .Enter, "S", "E"⟩]
    iters := [⟨12, "S", "S", "E"⟩] }

/-- An eight-instruction program for the C10 witness. -/
def sampleProgram : Program :=
  { opcodes := List.replicate 8 ⟨.Pop, some 0, some 0, some 0⟩ }

/-- A concrete compilation trace for the C6 witness: two allocations, one
release, one more allocation — high-water mark 2. -/
def sampleTrace : List BOp := [.localOp, .localOp, .releaseLocalOp, .localOp]

@[simp] theorem Program.set_length (p : Program) (pos : Nat) (i : Instr) :
    (p.set pos i).opcodes.length = p.opcodes.length := by
  simp [Program.set]

theorem le_highWater (es : List BOp) (cur : Int) : cur ≤ highWater es cur := by
  cases es with
  | nil => exact le_refl _
  | cons e es => exact le_max_left _ _

/-- `Labels.patch` never changes the program length. -/
theorem Labels.patch_length (l : Labels) (p : Program) :
    (l.patch p).opcodes.length = p.opcodes.length := by
  have gen : ∀ {α : Type} (g : Program → α → Program)
      (_ : ∀ p a, (g p a).opcodes.length = p.opcodes.length) (xs : List α) (p : Program),
      (xs.foldl g p).opcodes.length = p.opcodes.length := by
    intro α g hg xs
    induction xs with
    | nil => intro p; rfl
    | cons x xs ih => intro p; rw [List.foldl_cons, ih, hg]
  unfold Labels.patch
  rw [gen _ (fun p e => by simp) _,
      gen _ (fun p e => by simp) _,
      gen _ (fun p e => by simp) _]

@[simp] theorem BasicOpcodeBuilder.push_start (b : BasicOpcodeBuilder) (i : Instr) :
    (b.push i).start = b.start := rfl

@[simp] theorem BasicOpcodeBuilder.push_locals (b : BasicOpcodeBuilder) (i : Instr) :
    (b.push i).locals = b.locals := rfl

@[simp] theorem BasicOpcodeBuilder.push_localsSize (b : BasicOpcodeBuilder) (i : Instr) :
    (b.push i).localsSize = b.localsSize := rfl

@[simp] theorem BasicOpcodeBuilder.push_labelsStack (b : BasicOpcodeBuilder) (i : Instr) :
    (b.push i).labelsStack = b.labelsStack := rfl

@[simp] theorem BasicOpcodeBuilder.push_length (b : BasicOpcodeBuilder) (i : Instr) :
    (b.push i).program.opcodes.length = b.program.opcodes.length + 1 := by
  simp [BasicOpcodeBuilder.push, Program.push]

/-- Every builder-method call preserves `start`, never shrinks the program,
tracks `locals` by its `delta`, and moves `localsSize` only at `local()`. -/
theorem BOp.apply_facts (e : BOp) (b b' : BasicOpcodeBuilder)
    (h : e.apply b = .ok b') :
    b'.start = b.start ∧
    b.program.opcodes.length ≤ b'.program.opcodes.length ∧
    b'.locals = b.locals + e.delta ∧
    b'.localsSize = (if e = .localOp then max b.localsSize (b.locals + 1)
      else b.localsSize) := by
  cases e with
  | emit n =>
    cases h
    exact ⟨rfl, by simp, by simp [BOp.delta], by simp⟩
  | textOp s =>
    cases h
    unfold BasicOpcodeBuilder.text
    cases b.constants.string s
    exact ⟨rfl, by simp, by simp [BOp.delta], by simp⟩
  | localOp =>
    cases h
    refine ⟨rfl, le_refl _, by simp [BOp.delta, BasicOpcodeBuilder.localReg], ?_⟩
    rw [if_pos rfl]
    show (if b.localsSize < b.locals + 1 then b.locals + 1 else b.localsSize) = _
    by_cases hlt : b.localsSize < b.locals + 1
    · rw [if_pos hlt, max_eq_right (le_of_lt hlt)]
    · rw [if_neg hlt, max_eq_left (by omega)]
  | releaseLocalOp =>
    cases h
    exact ⟨rfl, le_refl _,
      by simp only [BOp.delta, BasicOpcodeBuilder.releaseLocal]; omega,
      by simp [BasicOpcodeBuilder.releaseLocal]⟩
  | startLabelsOp =>
    cases h
    exact ⟨rfl, le_refl _, by simp [BOp.delta, BasicOpcodeBuilder.startLabels], by simp [BasicOpcodeBuilder.startLabels]⟩
  | stopLabelsOp =>
    simp only [BOp.apply] at h
    unfold BasicOpcodeBuilder.stopLabels at h
    cases hst : b.labelsStack with
    | nil => rw [hst] at h; cases h
    | cons l rest =>
      rw [hst] at h
      cases h
      refine ⟨rfl, ?_, by simp [BOp.delta], by simp⟩
      simp [Labels.patch_length]
  | labelOp s =>
    simp only [BOp.apply] at h
    unfold BasicOpcodeBuilder.label BasicOpcodeBuilder.withLabels at h
    cases hst : b.labelsStack with
    | nil => rw [hst] at h; cases h
    | cons l rest =>
      rw [hst] at h
      cases h
      exact ⟨rfl, le_refl _, by simp [BOp.delta], by simp⟩
  | jumpOp s =>
    simp only [BOp.apply] at h
    unfold BasicOpcodeBuilder.jump BasicOpcodeBuilder.withLabels at h
    simp only [BasicOpcodeBuilder.reserve, BasicOpcodeBuilder.push_labelsStack] at h
    cases hst : b.labelsStack with
    | nil => rw [hst] at h; cases h
    | cons l rest =>
      rw [hst] at h
      cases h
      exact ⟨rfl, by simp [BasicOpcodeBuilder.reserve], by simp [BOp.delta, BasicOpcodeBuilder.reserve], by simp [BasicOpcodeBuilder.reserve]⟩
  | enterOp x y =>
    simp only [BOp.apply] at h
    unfold BasicOpcodeBuilder.enter BasicOpcodeBuilder.withLabels at h
    simp only [BasicOpcodeBuilder.reserve, BasicOpcodeBuilder.push_labelsStack] at h
    cases hst : b.labelsStack with
    | nil => rw [hst] at h; cases h
    | cons l rest =>
      rw [hst] at h
      cases h
      exact ⟨rfl, by simp [BasicOpcodeBuilder.reserve], by simp [BOp.delta, BasicOpcodeBuilder.reserve], by simp [BasicOpcodeBuilder.reserve]⟩
  | iterateOp x y z =>
    simp only [BOp.apply] at h
    unfold BasicOpcodeBuilder.iterate BasicOpcodeBuilder.withLabels at h
    simp only [BasicOpcodeBuilder.reserve, BasicOpcodeBuilder.push_labelsStack] at h
    cases hst : b.labelsStack with
    | nil => rw [hst] at h; cases h
    | cons l rest =>
      rw [hst] at h
      cases h
      exact ⟨rfl, by simp [BasicOpcodeBuilder.reserve], by simp [BOp.delta, BasicOpcodeBuilder.reserve], by simp [BasicOpcodeBuilder.reserve]⟩
  | primitiveOp v =>
    simp only [BOp.apply] at h
    unfold BasicOpcodeBuilder.primitive at h
    cases v with
    | num n =>
      cases h
      exact ⟨rfl, by simp, by simp [BOp.delta], by simp⟩
    | str s =>
      simp only at h
      revert h
      cases b.constants.string s
      intro h
      cases h
      exact ⟨rfl, by simp, by simp [BOp.delta], by simp⟩
    | bool tf =>
      cases h
      exact ⟨rfl, by simp, by simp [BOp.delta], by simp⟩
    | null =>
      cases h
      exact ⟨rfl, by simp, by simp [BOp.delta], by simp⟩
    | obj =>
      cases h
      exact ⟨rfl, by simp, by simp [BOp.delta], by simp⟩
    | undef =>
      cases h
      exact ⟨rfl, by simp, by simp [BOp.delta], by simp⟩
    | other => cases h

/-- Stepping the high-water mark across one call. -/
theorem highWater_step (S L : Int) (e : BOp) (es : List BOp) (hLS : L ≤ S) :
    max (if e = .localOp then max S (L + 1) else S) (highWater es (L + e.delta)) =
      max S (highWater (e :: es) L) := by
  rw [highWater]
  by_cases he : e = .localOp
  · subst he
    rw [if_pos rfl]
    simp only [BOp.delta]
    have h1 : L + 1 ≤ highWater es (L + 1) := le_highWater _ _
    have h2 : max L (highWater es (L + 1)) = highWater es (L + 1) :=
      max_eq_right (le_trans (by omega) h1)
    rw [max_assoc, max_eq_right h1, h2]
  · rw [if_neg he, ← max_assoc, max_eq_left hLS]

/-- Over a whole successful trace: `start` is preserved, the program never
shrinks, and `localsSize` ends at the high-water mark of the live-locals
counter (provided it starts no lower than the counter, as at construction). -/
theorem runOps_facts (es : List BOp) (b b' : BasicOpcodeBuilder)
    (hinv : b.locals ≤ b.localsSize)
    (h : runOps es b = .ok b') :
    b'.start = b.start ∧
    b.program.opcodes.length ≤ b'.program.opcodes.length ∧
    b'.localsSize = max b.localsSize (highWater es b.locals) := by
  induction es generalizing b with
  | nil =>
    cases h
    exact ⟨rfl, le_refl _, by rw [highWater, max_eq_left hinv]⟩
  | cons e es ih =>
    simp only [runOps] at h
    cases happ : e.apply b with
    | error msg => rw [happ] at h; cases h
    | ok b1 =>
      rw [happ] at h
      simp only [Except.bind] at h
      obtain ⟨hstart, hlen, hlocals, hsize⟩ := BOp.apply_facts e b b1 happ
      have hinv1 : b1.locals ≤ b1.localsSize := by
        rw [hlocals, hsize]
        by_cases he : e = .localOp
        · rw [if_pos he, he]
          simp only [BOp.delta]
          exact le_max_right _ _
        · rw [if_neg he]
          have hd : e.delta ≤ 0 := by
            cases e <;> simp only [BOp.delta] <;> first | omega | exact absurd rfl he
          omega
      obtain ⟨ih1, ih2, ih3⟩ := ih b1 hinv1 h
      refine ⟨ih1.trans hstart, le_trans hlen ih2, ?_⟩
      rw [ih3, hsize, hlocals]
      exact highWater_step _ _ e es hinv

theorem Labels.patch_eq_applyWrites (l : Labels) (p : Program) :
    l.patch p = applyWrites p l.patchWrites := by
  unfold Labels.patch applyWrites patchWrites
  rw [List.foldl_append, List.foldl_append, List.foldl_map, List.foldl_map, List.foldl_map]

theorem applyWrites_length (ws : List (Nat × Instr)) (p : Program) :
    (applyWrites p ws).opcodes.length = p.opcodes.length := by
  induction ws generalizing p with
  | nil => rfl
  | cons w ws ih => rw [applyWrites, List.foldl_cons, ← applyWrites, ih, Program.set_length]

/-- Indices never written stay unchanged. -/
theorem applyWrites_get_not_mem (ws : List (Nat × Instr)) (p : Program) (j : Nat)
    (hj : j ∉ ws.map (fun w => w.1 / 4)) :
    (applyWrites p ws).opcodes[j]? = p.opcodes[j]? := by
  induction ws generalizing p with
  | nil => rfl
  | cons w ws ih =>
    rw [List.map_cons, List.mem_cons, not_or] at hj
    rw [applyWrites, List.foldl_cons, ← applyWrites, ih _ hj.2]
    exact List.getElem?_set_ne (Ne.symm hj.1)

/-- When the written indices are pairwise distinct, each in-range write lands
intact. -/
theorem applyWrites_get_mem (ws : List (Nat × Instr)) (p : Program) (a : Nat) (i : Instr)
    (hmem : (a, i) ∈ ws)
    (hnodup : (ws.map (fun w => w.1 / 4)).Nodup)
    (hlt : a / 4 < p.opcodes.length) :
    (applyWrites p ws).opcodes[a / 4]? = some i := by
  induction ws generalizing p with
  | nil => cases hmem
  | cons w ws ih =>
    rw [List.map_cons, List.nodup_cons] at hnodup
    rw [applyWrites, List.foldl_cons, ← applyWrites]
    rcases List.mem_cons.1 hmem with heq | hmem'
    · subst heq
      rw [applyWrites_get_not_mem _ _ _ hnodup.1]
      show (p.opcodes.set (a / 4) i)[a / 4]? = some i
      rw [List.getElem?_set_self', List.getElem?_eq_getElem hlt]
      rfl
    · exact ih _ hmem' hnodup.2 (by rw [Program.set_length]; exact hlt)

/-! ## Bit-level facts about the primitive encoding -/

theorem bits32_ofNat (n : Nat) (h : n < 2 ^ 32) : bits32 (n : Int) = n := by
  unfold bits32
  rw [Int.emod_eq_of_lt (by positivity) (by exact_mod_cast h)]
  exact Int.toNat_natCast n

theorem bits32_int32 (n : Nat) : bits32 (int32 n) = n % 2 ^ 32 := by
  unfold bits32 int32
  split <;> omega

/-- The operand `(flag << 30) | payload` of a `Primitive` instruction has bit
pattern `flag * 2^30 + payload` whenever the payload fits in 30 bits and the
flag in 2. -/
theorem primitive_operand_bits (flag payload : Nat) (hf : flag < 4) (hp : payload < 2 ^ 30) :
    bits32 (jsOr (jsShl (flag : Int) 30) (payload : Int)) = flag * 2 ^ 30 + payload := by
  have hsum : flag * 2 ^ 30 + payload < 2 ^ 32 := by
    have : flag * 2 ^ 30 ≤ 3 * 2 ^ 30 := Nat.mul_le_mul_right _ (by omega)
    omega
  have hflag32 : flag < 2 ^ 32 := by omega
  have hpay32 : payload < 2 ^ 32 := by omega
  have hshl : bits32 (jsShl (flag : Int) 30) = flag * 2 ^ 30 := by
    unfold jsShl
    rw [bits32_ofNat flag hflag32, bits32_int32, Nat.shiftLeft_eq,
      Nat.mod_eq_of_lt (by omega)]
  unfold jsOr
  rw [hshl, bits32_ofNat payload hpay32, bits32_int32]
  have hor : flag * 2 ^ 30 ||| payload = flag * 2 ^ 30 + payload := by
    rw [Nat.mul_comm flag (2 ^ 30)]
    exact (Nat.mul_add_lt_is_or hp flag).symm
  rw [hor, Nat.mod_eq_of_lt hsum]

theorem strip_append (xs ys : List DNode) : strip (xs ++ ys) = strip xs ++ strip ys := by
  induction xs with
  | nil => simp [strip]
  | cons x xs ih =>
    cases x <;> simp [strip, ih]

theorem Neutral.append {xs ys : List DNode} (hx : Neutral xs) (hy : Neutral ys) :
    Neutral (xs ++ ys) := by
  induction hx with
  | nil => exact hy
  | consText s _ ih => exact .consText s ih
  | consElem t a cs _ ih => exact .consElem t a cs ih
  | consRegion hins _ ihins ih =>
    rw [List.cons_append, List.append_assoc, List.cons_append]
    exact .consRegion hins ih

theorem create_neutral (t : Tmpl) (c : Ctx) : Neutral (create t c) := by
  induction t with
  | empty => exact .nil
  | seq a b iha ihb => exact iha.append ihb
  | text s => exact .consText s .nil
  | curly k => exact .consText _ .nil
  | elem tag attrs child ih => exact .consElem tag attrs _ .nil
  | iff k thn els ihthn ihels =>
    show Neutral (.comment openMarker :: (_ ++ [.comment closeMarker]))
    by_cases hb : ctxBool c k
    · rw [if_pos hb]
      exact .consRegion ihthn .nil
    · rw [if_neg hb]
      exact .consRegion ihels .nil

theorem open_ne_close : openMarker ≠ closeMarker := by decide

theorem splitRegion_open (d : Nat) (rest : List DNode) :
    splitRegion d (.comment openMarker :: rest) =
      (splitRegion (d + 1) rest).map (fun r => (.comment openMarker :: r.1, r.2)) := by
  simp [splitRegion]

theorem splitRegion_close_zero (rest : List DNode) :
    splitRegion 0 (.comment closeMarker :: rest) = some ([], rest) := by
  simp [splitRegion, Ne.symm open_ne_close]

theorem splitRegion_close_succ (d : Nat) (rest : List DNode) :
    splitRegion (d + 1) (.comment closeMarker :: rest) =
      (splitRegion d rest).map (fun r => (.comment closeMarker :: r.1, r.2)) := by
  simp [splitRegion, Ne.symm open_ne_close]

theorem splitRegion_text (d : Nat) (s : String) (rest : List DNode) :
    splitRegion d (.text s :: rest) =
      (splitRegion d rest).map (fun r => (.text s :: r.1, r.2)) := by
  simp [splitRegion]

theorem splitRegion_elem (d : Nat) (t : String) (a : List (String × String))
    (cs rest : List DNode) :
    splitRegion d (.elem t a cs :: rest) =
      (splitRegion d rest).map (fun r => (.elem t a cs :: r.1, r.2)) := by
  simp [splitRegion]

/-- A balanced prefix is transparent to the end-marker scan. -/
theorem splitRegion_skip {xs : List DNode} (hx : Neutral xs) (d : Nat) (ys : List DNode) :
    splitRegion d (xs ++ ys) = (splitRegion d ys).map (fun r => (xs ++ r.1, r.2)) := by
  induction hx generalizing d ys with
  | nil =>
    rw [List.nil_append]
    cases h : splitRegion d ys <;> simp
  | consText s _ ih =>
    rw [List.cons_append, splitRegion_text, ih d ys, Option.map_map]
    cases splitRegion d ys <;> simp
  | consElem t a cs _ ih =>
    rw [List.cons_append, splitRegion_elem, ih d ys, Option.map_map]
    cases splitRegion d ys <;> simp
  | consRegion hins _ ihins ih =>
    rw [List.cons_append, List.append_assoc, List.cons_append, splitRegion_open,
      ihins (d + 1) _, Option.map_map, splitRegion_close_succ,
      ih d ys, Option.map_map, Option.map_map]
    cases splitRegion d ys <;> simp

@[simp] theorem strip_nil : strip [] = [] := by simp [strip]

@[simp] theorem strip_comment (s : String) (rest : List DNode) :
    strip (.comment s :: rest) = strip rest := by simp [strip]

@[simp] theorem strip_text (s : String) (rest : List DNode) :
    strip (.text s :: rest) = .text s :: strip rest := by simp [strip]

@[simp] theorem strip_elem (t : String) (a : List (String × String)) (cs rest : List DNode) :
    strip (.elem t a cs :: rest) = .elem t a (strip cs) :: strip rest := by simp [strip]

/-! Equation lemmas for `rehydrate`, one per cursor situation. -/

theorem rehydrate_empty (c : Ctx) (ns : List DNode) :
    rehydrate .empty c ns = ([], 0, ns) := by simp [rehydrate]

theorem rehydrate_seq (a b : Tmpl) (c : Ctx) (ns : List DNode) :
    rehydrate (.seq a b) c ns =
      ((rehydrate a c ns).1 ++ (rehydrate b c (rehydrate a c ns).2.2).1,
       (rehydrate a c ns).2.1 + (rehydrate b c (rehydrate a c ns).2.2).2.1,
       (rehydrate b c (rehydrate a c ns).2.2).2.2) := by simp [rehydrate]

theorem rehydrate_text_adopt (s s2 : String) (c : Ctx) (rest : List DNode) :
    rehydrate (.text s) c (.text s2 :: rest) = ([.text s], 0, rest) := by simp [rehydrate]

theorem rehydrate_text_nil (s : String) (c : Ctx) :
    rehydrate (.text s) c [] = ([.text s], 0, []) := by simp [rehydrate]

theorem rehydrate_text_comment (s m : String) (c : Ctx) (rest : List DNode) :
    rehydrate (.text s) c (.comment m :: rest) = ([.text s], 1, rest) := by simp [rehydrate]

theorem rehydrate_text_elem (s t2 : String) (a2 : List (String × String)) (c : Ctx)
    (cs rest : List DNode) :
    rehydrate (.text s) c (.elem t2 a2 cs :: rest) = ([.text s], 1, rest) := by
  simp [rehydrate]

theorem rehydrate_curly_adopt (k s2 : String) (c : Ctx) (rest : List DNode) :
    rehydrate (.curly k) c (.text s2 :: rest) = ([.text (ctxStr c k)], 0, rest) := by
  simp [rehydrate]

theorem rehydrate_curly_nil (k : String) (c : Ctx) :
    rehydrate (.curly k) c [] = ([.text (ctxStr c k)], 0, []) := by simp [rehydrate]

theorem rehydrate_curly_comment (k m : String) (c : Ctx) (rest : List DNode) :
    rehydrate (.curly k) c (.comment m :: rest) = ([.text (ctxStr c k)], 1, rest) := by
  simp [rehydrate]

theorem rehydrate_curly_elem (k t2 : String) (a2 : List (String × String)) (c : Ctx)
    (cs rest : List DNode) :
    rehydrate (.curly k) c (.elem t2 a2 cs :: rest) = ([.text (ctxStr c k)], 1, rest) := by
  simp [rehydrate]

theorem rehydrate_elem_adopt (tag : String) (attrs : List (String × String)) (child : Tmpl)
    (c : Ctx) (a2 : List (String × String)) (cs rest : List DNode) :
    rehydrate (.elem tag attrs child) c (.elem tag a2 cs :: rest) =
      ([.elem tag attrs (rehydrate child c cs).1],
       (rehydrate child c cs).2.1 + (rehydrate child c cs).2.2.length, rest) := by
  simp [rehydrate]

theorem rehydrate_elem_mismatch (tag : String) (attrs : List (String × String)) (child : Tmpl)
    (c : Ctx) (tag2 : String) (a2 : List (String × String)) (cs rest : List DNode)
    (h : tag ≠ tag2) :
    rehydrate (.elem tag attrs child) c (.elem tag2 a2 cs :: rest) =
      ([.elem tag attrs (create child c)], 1, rest) := by
  simp [rehydrate, h]

theorem rehydrate_elem_nil (tag : String) (attrs : List (String × String)) (child : Tmpl)
    (c : Ctx) :
    rehydrate (.elem tag attrs child) c [] = ([.elem tag attrs (create child c)], 0, []) := by
  simp [rehydrate]

theorem rehydrate_elem_text (tag : String) (attrs : List (String × String)) (child : Tmpl)
    (c : Ctx) (s : String) (rest : List DNode) :
    rehydrate (.elem tag attrs child) c (.text s :: rest) =
      ([.elem tag attrs (create child c)], 1, rest) := by
  simp [rehydrate]

theorem rehydrate_elem_comment (tag : String) (attrs : List (String × String)) (child : Tmpl)
    (c : Ctx) (m : String) (rest : List DNode) :
    rehydrate (.elem tag attrs child) c (.comment m :: rest) =
      ([.elem tag attrs (create child c)], 1, rest) := by
  simp [rehydrate]

theorem rehydrate_iff_adopt (k : String) (thn els : Tmpl) (c : Ctx)
    (rest ins after : List DNode) (h : splitRegion 0 rest = some (ins, after)) :
    rehydrate (.iff k thn els) c (.comment openMarker :: rest) =
      ((if ctxBool c k then rehydrate thn c ins else rehydrate els c ins).1,
       (if ctxBool c k then rehydrate thn c ins else rehydrate els c ins).2.1 +
         (if ctxBool c k then rehydrate thn c ins else rehydrate els c ins).2.2.length,
       after) := by
  simp [rehydrate, h]

theorem rehydrate_iff_split_fail (k : String) (thn els : Tmpl) (c : Ctx)
    (rest : List DNode) (h : splitRegion 0 rest = none) :
    rehydrate (.iff k thn els) c (.comment openMarker :: rest) =
      ((if ctxBool c k then create thn c else create els c), 0,
        .comment openMarker :: rest) := by
  simp [rehydrate, h]

theorem rehydrate_iff_comment (k : String) (thn els : Tmpl) (c : Ctx) (m : String)
    (rest : List DNode) (h : m ≠ openMarker) :
    rehydrate (.iff k thn els) c (.comment m :: rest) =
      ((if ctxBool c k then create thn c else create els c), 0, .comment m :: rest) := by
  simp [rehydrate, h]

theorem rehydrate_iff_nil (k : String) (thn els : Tmpl) (c : Ctx) :
    rehydrate (.iff k thn els) c [] =
      ((if ctxBool c k then create thn c else create els c), 0, []) := by
  simp [rehydrate]

theorem rehydrate_iff_text (k : String) (thn els : Tmpl) (c : Ctx) (s : String)
    (rest : List DNode) :
    rehydrate (.iff k thn els) c (.text s :: rest) =
      ((if ctxBool c k then create thn c else create els c), 0, .text s :: rest) := by
  simp [rehydrate]

theorem rehydrate_iff_elem (k : String) (thn els : Tmpl) (c : Ctx) (t2 : String)
    (a2 : List (String × String)) (cs rest : List DNode) :
    rehydrate (.iff k thn els) c (.elem t2 a2 cs :: rest) =
      ((if ctxBool c k then create thn c else create els c), 0, .elem t2 a2 cs :: rest) := by
  simp [rehydrate]

/-- Stripping the markers off a conditional region's Create output leaves the
taken branch's stripped output. -/
theorem strip_create_iff (k : String) (thn els : Tmpl) (c : Ctx) :
    strip (create (.iff k thn els) c) =
      strip (if ctxBool c k then create thn c else create els c) := by
  show strip (.comment openMarker :: (_ ++ [.comment closeMarker])) = _
  rw [strip_comment, strip_append]
  simp

/-- Convergence of the rehydration output: whatever pre-existing node list
the cursor walks, the output is structurally identical (after erasing
markers) to a fresh Create-mode render. -/
theorem strip_rehydrate (t : Tmpl) (c : Ctx) (ns : List DNode) :
    strip (rehydrate t c ns).1 = strip (create t c) := by
  induction t generalizing ns with
  | empty => rw [rehydrate_empty]; simp [create]
  | seq a b iha ihb =>
    rw [rehydrate_seq]
    show strip (_ ++ _) = strip (create a c ++ create b c)
    rw [strip_append, strip_append, iha, ihb]
  | text s =>
    cases ns with
    | nil => rw [rehydrate_text_nil]; simp [create]
    | cons n rest =>
      cases n with
      | text s2 => rw [rehydrate_text_adopt]; simp [create]
      | comment m => rw [rehydrate_text_comment]; simp [create]
      | elem t2 a2 cs => rw [rehydrate_text_elem]; simp [create]
  | curly k =>
    cases ns with
    | nil => rw [rehydrate_curly_nil]; simp [create]
    | cons n rest =>
      cases n with
      | text s2 => rw [rehydrate_curly_adopt]; simp [create]
      | comment m => rw [rehydrate_curly_comment]; simp [create]
      | elem t2 a2 cs => rw [rehydrate_curly_elem]; simp [create]
  | elem tag attrs child ih =>
    cases ns with
    | nil => rw [rehydrate_elem_nil]; simp [create]
    | cons n rest =>
      cases n with
      | text s => rw [rehydrate_elem_text]; simp [create]
      | comment m => rw [rehydrate_elem_comment]; simp [create]
      | elem tag2 a2 cs =>
        by_cases ht : tag = tag2
        · subst ht
          rw [rehydrate_elem_adopt]
          show strip [.elem tag attrs (rehydrate child c cs).1] = _
          rw [strip_elem, ih cs]
          simp [create]
        · rw [rehydrate_elem_mismatch _ _ _ _ _ _ _ _ ht]; simp [create]
  | iff k thn els ihthn ihels =>
    have hfall : strip (if ctxBool c k then create thn c else create els c) =
        strip (create (.iff k thn els) c) := (strip_create_iff k thn els c).symm
    cases ns with
    | nil => rw [rehydrate_iff_nil]; exact hfall
    | cons n rest =>
      cases n with
      | text s => rw [rehydrate_iff_text]; exact hfall
      | elem t2 a2 cs => rw [rehydrate_iff_elem]; exact hfall
      | comment m =>
        by_cases hm : m = openMarker
        · subst hm
          cases hsp : splitRegion 0 rest with
          | none => rw [rehydrate_iff_split_fail _ _ _ _ _ hsp]; exact hfall
          | some r =>
            rw [rehydrate_iff_adopt _ _ _ _ _ r.1 r.2 (by rw [hsp])]
            rw [strip_create_iff]
            by_cases hb : ctxBool c k
            · rw [if_pos hb, if_pos hb, ihthn]
            · rw [if_neg hb, if_neg hb, ihels]
        · rw [rehydrate_iff_comment _ _ _ _ _ _ hm]; exact hfall

/-- Rehydrating Create-mode output (with any trailing siblings appended)
adopts every node: nothing is removed and the cursor stops exactly at the
trailing siblings. -/
theorem rehydrate_create (t : Tmpl) (c : Ctx) (extra : List DNode) :
    (rehydrate t c (create t c ++ extra)).2.1 = 0 ∧
    (rehydrate t c (create t c ++ extra)).2.2 = extra := by
  induction t generalizing extra with
  | empty => rw [show create .empty c ++ extra = extra from rfl, rehydrate_empty]; exact ⟨rfl, rfl⟩
  | seq a b iha ihb =>
    rw [show create (.seq a b) c ++ extra = create a c ++ (create b c ++ extra) by
      simp [create]]
    rw [rehydrate_seq]
    obtain ⟨ha1, ha2⟩ := iha (create b c ++ extra)
    rw [ha2]
    obtain ⟨hb1, hb2⟩ := ihb extra
    exact ⟨by simp [ha1, hb1], hb2⟩
  | text s =>
    rw [show create (.text s) c ++ extra = .text s :: extra by simp [create],
      rehydrate_text_adopt]
    exact ⟨rfl, rfl⟩
  | curly k =>
    rw [show create (.curly k) c ++ extra = .text (ctxStr c k) :: extra by simp [create],
      rehydrate_curly_adopt]
    exact ⟨rfl, rfl⟩
  | elem tag attrs child ih =>
    rw [show create (.elem tag attrs child) c ++ extra
        = .elem tag attrs (create child c) :: extra by simp [create],
      rehydrate_elem_adopt]
    obtain ⟨h1, h2⟩ := ih []
    rw [List.append_nil] at h1 h2
    exact ⟨by simp [h1, h2], rfl⟩
  | iff k thn els ihthn ihels =>
    by_cases hb : ctxBool c k
    · have hcr : create (.iff k thn els) c ++ extra
          = .comment openMarker :: ((create thn c ++ [.comment closeMarker]) ++ extra) := by
        simp [create, if_pos hb]
      have hsp : splitRegion 0 ((create thn c ++ [.comment closeMarker]) ++ extra)
          = some (create thn c, extra) := by
        rw [List.append_assoc, List.singleton_append,
          splitRegion_skip (create_neutral thn c) 0, splitRegion_close_zero]
        simp
      rw [hcr, rehydrate_iff_adopt _ _ _ _ _ _ _ hsp]
      obtain ⟨h1, h2⟩ := ihthn []
      rw [List.append_nil] at h1 h2
      simp only [if_pos hb]
      exact ⟨by simp [h1, h2], by simp⟩
    · have hcr : create (.iff k thn els) c ++ extra
          = .comment openMarker :: ((create els c ++ [.comment closeMarker]) ++ extra) := by
        simp [create, if_neg hb]
      have hsp : splitRegion 0 ((create els c ++ [.comment closeMarker]) ++ extra)
          = some (create els c, extra) := by
        rw [List.append_assoc, List.singleton_append,
          splitRegion_skip (create_neutral els c) 0, splitRegion_close_zero]
        simp
      rw [hcr, rehydrate_iff_adopt _ _ _ _ _ _ _ hsp]
      obtain ⟨h1, h2⟩ := ihels []
      rw [List.append_nil] at h1 h2
      simp only [if_neg hb]
      exact ⟨by simp [h1, h2], by simp⟩

/-! ## Handle bounds for the constant pool -/

theorem indexOf?_lt_length {α : Type} [BEq α] {l : List α} {a : α} {i : Nat}
    (h : l.indexOf? a = some i) : i < l.length := by
  induction l generalizing i with
  | nil => simp at h
  | cons x xs ih =>
    rw [List.indexOf?_cons] at h
    by_cases hx : (x == a) = true
    · rw [if_pos hx] at h
      cases h
      simp
    · rw [if_neg hx] at h
      cases hidx : xs.indexOf? a with
      | none => rw [hidx] at h; cases h
      | some j =>
        rw [hidx] at h
        cases h
        have := ih hidx
        simp only [List.length_cons]
        omega

theorem Constants.string_handle_le (c : Constants) (s : String) :
    (c.string s).2 ≤ c.strings.length + 1 := by
  unfold Constants.string
  cases hidx : c.strings.indexOf? s with
  | none => simp
  | some i =>
    have := indexOf?_lt_length hidx
    simp only
    omega

/-! ## The claims -/

/-- C7: Local register allocation is a counter: `local()` returns the current
counter value and increments it; `releaseLocal()` decrements unconditionally
(it does not even take a register to check); after a release the next
`local()` returns the index that was most recently live, so reuse after
release yields the released index.  No LIFO or pairing discipline exists in
the state. -/
theorem C7_local_counter (b : BasicOpcodeBuilder) :
    b.localReg.2 = b.locals ∧
    b.localReg.1.locals = b.locals + 1 ∧
    b.releaseLocal.locals = b.locals - 1 ∧
    b.localReg.1.releaseLocal.localReg.2 = b.localReg.2 ∧
    b.releaseLocal.localReg.2 = b.locals - 1 := by
  refine ⟨rfl, rfl, rfl, ?_, rfl⟩
  show b.locals + 1 - 1 = b.locals
  omega

/-- C8: With no label scope open, `stopLabels()` and every recording of a
label, jump, range or iterate target raise an `expect` fault instead of
continuing silently. -/
theorem C8_unbalanced_label_faults (b : BasicOpcodeBuilder)
    (h : b.labelsStack = []) (name brk start stop : String) :
    b.stopLabels = .error "unbalanced push and pop labels" ∧
    b.label name = .error "bug: not in a label stack" ∧
    b.jump .Jump name = .error "bug: not in a label stack" ∧
    b.jump .JumpIf name = .error "bug: not in a label stack" ∧
    b.jump .JumpUnless name = .error "bug: not in a label stack" ∧
    b.enter .Enter start stop = .error "bug: not in a label stack" ∧
    b.enter .EnterList start stop = .error "bug: not in a label stack" ∧
    b.iterate brk start stop = .error "bug: not in a label stack" := by
  unfold BasicOpcodeBuilder.stopLabels BasicOpcodeBuilder.label BasicOpcodeBuilder.jump
    BasicOpcodeBuilder.enter BasicOpcodeBuilder.iterate BasicOpcodeBuilder.withLabels
  simp only [BasicOpcodeBuilder.reserve, BasicOpcodeBuilder.push_labelsStack, h]
  simp

theorem C8_unbalanced_label_faults_witness :
    (BasicOpcodeBuilder.init {} {}).stopLabels = .error "unbalanced push and pop labels" ∧
    (BasicOpcodeBuilder.init {} {}).label "a" = .error "bug: not in a label stack" ∧
    (BasicOpcodeBuilder.init {} {}).jump .Jump "a" = .error "bug: not in a label stack" ∧
    (BasicOpcodeBuilder.init {} {}).jump .JumpIf "a" = .error "bug: not in a label stack" ∧
    (BasicOpcodeBuilder.init {} {}).jump .JumpUnless "a" = .error "bug: not in a label stack" ∧
    (BasicOpcodeBuilder.init {} {}).enter .Enter "a" "b" = .error "bug: not in a label stack" ∧
    (BasicOpcodeBuilder.init {} {}).enter .EnterList "a" "b" =
      .error "bug: not in a label stack" ∧
    (BasicOpcodeBuilder.init {} {}).iterate "a" "b" "c" =
      .error "bug: not in a label stack" :=
  C8_unbalanced_label_faults (BasicOpcodeBuilder.init {} {}) rfl "a" "a" "b" "c"

/-- C3 counterexample: closing the scope does NOT fail — `stopLabels`
returns `.ok`, and the jump instruction survives into the program with an
undefined (`none`) target operand that the VM would only trip over at
execution time. -/
theorem C3_counterexample :
    unresolvedJumpRun =
      .ok { labelsStack := []
            constants := {}
            start := 0
            locals := 0
            localsSize := 0
            program := { opcodes := [⟨.ReserveLocals, some 0, some 0, some 0⟩,
                                     ⟨.Jump, none, some 0, some 0⟩] } } := by
  rfl

/-- C3 amended: closing a label scope never fails while a scope is open,
even when a recorded jump references a label that was never placed; the jump
is patched with the undefined lookup result, so the unresolved reference
survives into the finalized program and can only fail at execution time. -/
theorem C3_amended (b : BasicOpcodeBuilder) (l : Labels) (rest : List Labels)
    (e : JumpEntry)
    (hst : b.labelsStack = l :: rest)
    (hmem : e ∈ l.jumps)
    (hmiss : l.labels.lookup e.target = none)
    (hnodup : (l.patchWrites.map (fun w => w.1 / 4)).Nodup)
    (hlt : e.atPos / 4 < b.program.opcodes.length) :
    ∃ b', b.stopLabels = .ok b' ∧
      b'.program.opcodes[e.atPos / 4]? = some ⟨e.Target, none, some 0, some 0⟩ := by
  refine ⟨{ b with labelsStack := rest, program := l.patch b.program }, ?_, ?_⟩
  · unfold BasicOpcodeBuilder.stopLabels
    rw [hst]
  · have hlk : l.lookup e.target = none := by
      unfold Labels.lookup
      rw [hmiss]
      rfl
    rw [Labels.patch_eq_applyWrites]
    have hw : (e.atPos, (⟨e.Target, l.lookup e.target, some 0, some 0⟩ : Instr))
        ∈ l.patchWrites := by
      unfold Labels.patchWrites
      exact List.mem_append_left _ (List.mem_append_left _ (List.mem_map_of_mem _ hmem))
    rw [hlk] at hw
    exact applyWrites_get_mem _ _ _ _ hw hnodup hlt

theorem C3_amended_witness :
    ∃ b', ({ labelsStack := [{ labels := [], jumps := [⟨4, .Jump, "MISSING"⟩],
                               ranges := [], iters := [] }]
             constants := {}
             start := 0
             locals := 0
             localsSize := 0
             program := { opcodes := [⟨.ReserveLocals, some 0, some 0, some 0⟩,
                                      ⟨.Jump, some 0, some 0, some 0⟩] } }
        : BasicOpcodeBuilder).stopLabels = .ok b' ∧
      b'.program.opcodes[(4 : Nat) / 4]? = some ⟨.Jump, none, some 0, some 0⟩ :=
  C3_amended _ _ _ ⟨4, .Jump, "MISSING"⟩ rfl (by decide) (by decide) (by decide) (by decide)

/-- C10: when a scope is patched, each recorded jump is written with its
target label's recorded offset unmodified, while each range (`Enter`/
`EnterList`) and each `Iterate` is written with its end label's offset minus
4 — one instruction width, i.e. the address of the instruction immediately
before the end label. -/
theorem C10_patch_offsets (l : Labels) (p : Program)
    (hnodup : (l.patchWrites.map (fun w => w.1 / 4)).Nodup) :
    (∀ e ∈ l.jumps, e.atPos / 4 < p.opcodes.length →
      (l.patch p).opcodes[e.atPos / 4]? =
        some ⟨e.Target, l.lookup e.target, some 0, some 0⟩) ∧
    (∀ e ∈ l.ranges, e.atPos / 4 < p.opcodes.length →
      (l.patch p).opcodes[e.atPos / 4]? =
        some ⟨e.Range, l.lookup e.start, jsSub (l.lookup e.stop) 4, some 0⟩) ∧
    (∀ e ∈ l.iters, e.atPos / 4 < p.opcodes.length →
      (l.patch p).opcodes[e.atPos / 4]? =
        some ⟨.Iterate, l.lookup e.breaks, l.lookup e.start, jsSub (l.lookup e.stop) 4⟩) := by
  refine ⟨?_, ?_, ?_⟩ <;> intro e hmem hlt <;> rw [Labels.patch_eq_applyWrites]
  · refine applyWrites_get_mem _ _ _ _ ?_ hnodup hlt
    unfold Labels.patchWrites
    exact List.mem_append_left _ (List.mem_append_left _ (List.mem_map_of_mem _ hmem))
  · refine applyWrites_get_mem _ _ _ _ ?_ hnodup hlt
    unfold Labels.patchWrites
    exact List.mem_append_left _ (List.mem_append_right _ (List.mem_map_of_mem _ hmem))
  · refine applyWrites_get_mem _ _ _ _ ?_ hnodup hlt
    unfold Labels.patchWrites
    exact List.mem_append_right _ (List.mem_map_of_mem _ hmem)

theorem C10_patch_offsets_witness :
    (sampleLabels.patch sampleProgram).opcodes[(4 : Nat) / 4]? =
      some ⟨.Jump, some 16, some 0, some 0⟩ ∧
    (sampleLabels.patch sampleProgram).opcodes[(8 : Nat) / 4]? =
      some ⟨.Enter, some 16, some 24, some 0⟩ ∧
    (sampleLabels.patch sampleProgram).opcodes[(12 : Nat) / 4]? =
      some ⟨.Iterate, some 16, some 16, some 24⟩ := by
  obtain ⟨hj, hr, hi⟩ := C10_patch_offsets sampleLabels sampleProgram (by decide)
  refine ⟨?_, ?_, ?_⟩
  · have := hj ⟨4, .Jump, "S"⟩ (by decide) (by decide)
    rw [this]
    rfl
  · have := hr ⟨8, .Enter, "S", "E"⟩ (by decide) (by decide)
    rw [this]
    rfl
  · have := hi ⟨12, "S", "S", "E"⟩ (by decide) (by decide)
    rw [this]
    rfl

/-- C6: the constructor reserves the slot at the program's start position
(recording `start = program.next` and pushing a `ReserveLocals` there), and
after any successful compilation trace `finalize()` writes into exactly that
reserved head slot a `ReserveLocals` carrying the register high-water mark —
the maximum number of simultaneously allocated locals over the whole
compilation — and appends a `ReleaseLocals` cleanup instruction at the end. -/
theorem C6_finalize_reserved_slot (c : Constants) (p : Program) (es : List BOp)
    (b' : BasicOpcodeBuilder)
    (h : runOps es (BasicOpcodeBuilder.init c p) = .ok b') :
    (BasicOpcodeBuilder.init c p).start = p.next ∧
    (BasicOpcodeBuilder.init c p).program.opcodes[p.next / 4]? =
      some ⟨.ReserveLocals, some 0, some 0, some 0⟩ ∧
    b'.start = p.next ∧
    b'.localsSize = highWater es 0 ∧
    b'.finalize.program.opcodes[p.next / 4]? =
      some ⟨.ReserveLocals, some b'.localsSize, some 0, some 0⟩ ∧
    b'.finalize.program.opcodes.getLast? = some ⟨.ReleaseLocals, some 0, some 0, some 0⟩ := by
  have hidx : p.next / 4 = p.opcodes.length := by
    unfold Program.next
    omega
  obtain ⟨hstart, hlen, hsize⟩ :=
    runOps_facts es (BasicOpcodeBuilder.init c p) b' (le_refl 0) h
  have hstart0 : (BasicOpcodeBuilder.init c p).start = p.next := rfl
  have hlen0 : (BasicOpcodeBuilder.init c p).program.opcodes.length
      = p.opcodes.length + 1 := by
    show (p.push _).1.opcodes.length = _
    simp [Program.push]
  have hlt : p.next / 4 < b'.program.opcodes.length := by
    rw [hidx]
    rw [hlen0] at hlen
    omega
  refine ⟨hstart0, ?_, hstart.trans hstart0, ?_, ?_, ?_⟩
  · show ((p.push ⟨.ReserveLocals, some 0, some 0, some 0⟩).1.opcodes)[p.next / 4]? = _
    rw [hidx]
    show (p.opcodes ++ [⟨.ReserveLocals, some 0, some 0, some 0⟩])[p.opcodes.length]? = _
    rw [List.getElem?_append_right (le_refl _)]
    simp
  · rw [hsize]
    show (0 : Int) ⊔ highWater es 0 = highWater es 0
    rw [max_eq_right (le_highWater es 0)]
  · show ((b'.program.set b'.start
        (⟨.ReserveLocals, some b'.localsSize, some 0, some 0⟩ : Instr)).opcodes
          ++ [(⟨.ReleaseLocals, some 0, some 0, some 0⟩ : Instr)])[p.next / 4]? = _
    rw [List.getElem?_append_left (by rw [Program.set_length]; exact hlt)]
    show (b'.program.opcodes.set (b'.start / 4) _)[p.next / 4]? = _
    rw [hstart.trans hstart0, List.getElem?_set_self', List.getElem?_eq_getElem hlt]
    rfl
  · show ((b'.program.set b'.start
        (⟨.ReserveLocals, some b'.localsSize, some 0, some 0⟩ : Instr)).opcodes
          ++ [(⟨.ReleaseLocals, some 0, some 0, some 0⟩ : Instr)]).getLast? = _
    exact List.getLast?_concat _

theorem C6_finalize_reserved_slot_witness :
    (BasicOpcodeBuilder.init {} {}).start = Program.next {} ∧
    (BasicOpcodeBuilder.init {} {}).program.opcodes[Program.next {} / 4]? =
      some ⟨.ReserveLocals, some 0, some 0, some 0⟩ ∧
    ({ labelsStack := [], constants := {}, start := 0, locals := 2, localsSize := 2,
       program := { opcodes := [⟨.ReserveLocals, some 0, some 0, some 0⟩] } }
      : BasicOpcodeBuilder).start = Program.next {} ∧
    ({ labelsStack := [], constants := {}, start := 0, locals := 2, localsSize := 2,
       program := { opcodes := [⟨.ReserveLocals, some 0, some 0, some 0⟩] } }
      : BasicOpcodeBuilder).localsSize = highWater sampleTrace 0 ∧
    ({ labelsStack := [], constants := {}, start := 0, locals := 2, localsSize := 2,
       program := { opcodes := [⟨.ReserveLocals, some 0, some 0, some 0⟩] } }
      : BasicOpcodeBuilder).finalize.program.opcodes[Program.next {} / 4]? =
      some ⟨.ReserveLocals, some 2, some 0, some 0⟩ ∧
    ({ labelsStack := [], constants := {}, start := 0, locals := 2, localsSize := 2,
       program := { opcodes := [⟨.ReserveLocals, some 0, some 0, some 0⟩] } }
      : BasicOpcodeBuilder).finalize.program.opcodes.getLast? =
      some ⟨.ReleaseLocals, some 0, some 0, some 0⟩ :=
  C6_finalize_reserved_slot {} {} sampleTrace _ (by rfl)

/-- C4 counterexample: a non-null object passed to `primitive()` does NOT
raise the fatal compile error the claim requires for every value outside
number/string/boolean/null/undefined — the `case 'object'` branch assumes
null and silently emits a `Primitive` instruction carrying the null
encoding. -/
theorem C4_counterexample :
    (BasicOpcodeBuilder.init {} {}).primitive .obj =
      .ok ((BasicOpcodeBuilder.init {} {}).push
        ⟨.Primitive, some (jsOr (jsShl 2 30) 2), some 0, some 0⟩) := rfl

/-- C4 amended: `primitive()` emits, for every number, string, boolean,
null and undefined input, exactly one `Primitive` instruction whose single
operand packs a 2-bit type tag in the top bits (the bit pattern divided by
`2^30`) together with a 30-bit payload (the bit pattern modulo `2^30`): the
number itself, the constant-pool string handle, or the
boolean/null/undefined code `1`/`0`, `2`, `3`.  A non-null object is NOT a
fatal error: the `case 'object'` branch assumes null, so it is silently
encoded exactly like null (tag `2`, payload `2`).  Only a value whose
`typeof` is none of the handled strings (symbol, function) raises the fatal
compile error and emits nothing. -/
theorem C4_primitive_encoding (b : BasicOpcodeBuilder) :
    (∀ n : Int, 0 ≤ n → n < 2 ^ 30 →
      ∃ v : Int, b.primitive (.num n) =
          .ok (b.push ⟨.Primitive, some v, some 0, some 0⟩) ∧
        bits32 v / 2 ^ 30 = 0 ∧ (bits32 v % 2 ^ 30 : Int) = n) ∧
    (∀ s : String, b.constants.strings.length + 1 < 2 ^ 30 →
      ∃ v : Int, b.primitive (.str s) =
          .ok ({ b with constants := (b.constants.string s).1 }.push
            ⟨.Primitive, some v, some 0, some 0⟩) ∧
        bits32 v / 2 ^ 30 = 1 ∧ bits32 v % 2 ^ 30 = (b.constants.string s).2) ∧
    (∀ tf : Bool, ∃ v : Int, b.primitive (.bool tf) =
        .ok (b.push ⟨.Primitive, some v, some 0, some 0⟩) ∧
      bits32 v / 2 ^ 30 = 2 ∧ bits32 v % 2 ^ 30 = (if tf then 1 else 0)) ∧
    (∃ v : Int, b.primitive .null = .ok (b.push ⟨.Primitive, some v, some 0, some 0⟩) ∧
      bits32 v / 2 ^ 30 = 2 ∧ bits32 v % 2 ^ 30 = 2) ∧
    (∃ v : Int, b.primitive .obj = .ok (b.push ⟨.Primitive, some v, some 0, some 0⟩) ∧
      bits32 v / 2 ^ 30 = 2 ∧ bits32 v % 2 ^ 30 = 2) ∧
    (∃ v : Int, b.primitive .undef = .ok (b.push ⟨.Primitive, some v, some 0, some 0⟩) ∧
      bits32 v / 2 ^ 30 = 2 ∧ bits32 v % 2 ^ 30 = 3) ∧
    b.primitive .other = .error "Invalid primitive passed to pushPrimitive" := by
  refine ⟨?_, ?_, ?_, ?_, ?_, ?_, rfl⟩
  · intro n h0 h1
    refine ⟨jsOr (jsShl 0 30) n, rfl, ?_⟩
    have hb := primitive_operand_bits 0 n.toNat (by norm_num) (by omega)
    rw [Int.toNat_of_nonneg h0] at hb
    simp only [Nat.cast_zero] at hb
    omega
  · intro s hlen
    refine ⟨jsOr (jsShl 1 30) ((b.constants.string s).2 : Int), ?_, ?_⟩
    · rfl
    · have hh : (b.constants.string s).2 < 2 ^ 30 := by
        have := b.constants.string_handle_le s
        omega
      have hb := primitive_operand_bits 1 (b.constants.string s).2 (by norm_num) hh
      simp only [Nat.cast_one] at hb
      omega
  · intro tf
    cases tf
    · refine ⟨jsOr (jsShl 2 30) 0, rfl, ?_, ?_⟩
      · have hb := primitive_operand_bits 2 0 (by norm_num) (by norm_num)
        simp only [Nat.cast_ofNat, Nat.cast_zero] at hb
        omega
      · show bits32 (jsOr (jsShl 2 30) 0) % 2 ^ 30 = 0
        have hb := primitive_operand_bits 2 0 (by norm_num) (by norm_num)
        simp only [Nat.cast_ofNat, Nat.cast_zero] at hb
        omega
    · refine ⟨jsOr (jsShl 2 30) 1, rfl, ?_, ?_⟩
      · have hb := primitive_operand_bits 2 1 (by norm_num) (by norm_num)
        simp only [Nat.cast_ofNat, Nat.cast_one] at hb
        omega
      · show bits32 (jsOr (jsShl 2 30) 1) % 2 ^ 30 = 1
        have hb := primitive_operand_bits 2 1 (by norm_num) (by norm_num)
        simp only [Nat.cast_ofNat, Nat.cast_one] at hb
        omega
  · refine ⟨jsOr (jsShl 2 30) 2, rfl, ?_⟩
    have hb := primitive_operand_bits 2 2 (by norm_num) (by norm_num)
    simp only [Nat.cast_ofNat] at hb
    omega
  · refine ⟨jsOr (jsShl 2 30) 2, rfl, ?_⟩
    have hb := primitive_operand_bits 2 2 (by norm_num) (by norm_num)
    simp only [Nat.cast_ofNat] at hb
    omega
  · refine ⟨jsOr (jsShl 2 30) 3, rfl, ?_⟩
    have hb := primitive_operand_bits 2 3 (by norm_num) (by norm_num)
    simp only [Nat.cast_ofNat] at hb
    omega

theorem C4_primitive_encoding_witness :
    (∃ v : Int, (BasicOpcodeBuilder.init {} {}).primitive (.num 7) =
        .ok ((BasicOpcodeBuilder.init {} {}).push ⟨.Primitive, some v, some 0, some 0⟩) ∧
      bits32 v / 2 ^ 30 = 0 ∧ (bits32 v % 2 ^ 30 : Int) = 7) ∧
    (∃ v : Int, (BasicOpcodeBuilder.init {} {}).primitive (.str "hi") =
        .ok ({ BasicOpcodeBuilder.init {} {} with
            constants := ((BasicOpcodeBuilder.init {} {}).constants.string "hi").1 }.push
          ⟨.Primitive, some v, some 0, some 0⟩) ∧
      bits32 v / 2 ^ 30 = 1 ∧
      bits32 v % 2 ^ 30 = ((BasicOpcodeBuilder.init {} {}).constants.string "hi").2) ∧
    (∃ v : Int, (BasicOpcodeBuilder.init {} {}).primitive .obj =
        .ok ((BasicOpcodeBuilder.init {} {}).push ⟨.Primitive, some v, some 0, some 0⟩) ∧
      bits32 v / 2 ^ 30 = 2 ∧ bits32 v % 2 ^ 30 = 2) ∧
    (BasicOpcodeBuilder.init {} {}).primitive .other =
      .error "Invalid primitive passed to pushPrimitive" := by
  obtain ⟨hnum, hstr, hbool, hnull, hobj, hundef, hother⟩ :=
    C4_primitive_encoding (BasicOpcodeBuilder.init {} {})
  exact ⟨hnum 7 (by norm_num) (by norm_num), hstr "hi" (by decide), hobj, hother⟩

theorem push_opcodes (b : BasicOpcodeBuilder) (i : Instr) :
    (b.push i).program.opcodes = b.program.opcodes ++ [i] := rfl

theorem localReg_opcodes (b : BasicOpcodeBuilder) :
    b.localReg.1.program.opcodes = b.program.opcodes := rfl

theorem localReg_snd (b : BasicOpcodeBuilder) : b.localReg.2 = b.locals := rfl

theorem localReg_locals (b : BasicOpcodeBuilder) :
    b.localReg.1.locals = b.locals + 1 := rfl

theorem pushBlock_shape (b : BasicOpcodeBuilder) (blk : Option Unit) :
    ∃ i : Instr, i.name = .PushBlock ∧
      (b.pushBlock blk).program.opcodes = b.program.opcodes ++ [i] ∧
      (b.pushBlock blk).locals = b.locals := by
  cases blk with
  | none => exact ⟨⟨.PushBlock, some 0, some 0, some 0⟩, rfl, rfl, rfl⟩
  | some u => exact ⟨⟨.PushBlock, some (b.constants.blocks + 1 : Nat), some 0, some 0⟩,
      rfl, rfl, rfl⟩

/-- C5: `invokeComponent` emits exactly the fixed component-invocation
protocol, in order: allocate a register for component state (binding it with
`SetComponentState`), bind the default and inverse blocks and compile the
named arguments, push a dynamic scope, bind the argument object, instantiate
the component state, register a destructor, begin a transaction, resolve the
component self and layout, invoke the layout as a nested program, run the
post-creation hooks, pop the lexical and dynamic scopes, commit the
transaction, and finally release the register (the live-locals counter ends
where it began). -/
theorem push_constants (b : BasicOpcodeBuilder) (i : Instr) :
    (b.push i).constants = b.constants := rfl

theorem C5_invoke_component_protocol
    (compileArgs : BasicOpcodeBuilder → BasicOpcodeBuilder × Int)
    (block inverse : Option Unit) (b : BasicOpcodeBuilder)
    (argCode : List Instr)
    (hargs : ∀ s : BasicOpcodeBuilder,
      (compileArgs s).1.program.opcodes = s.program.opcodes ++ argCode ∧
      (compileArgs s).1.locals = s.locals) :
    (OpcodeBuilder.invokeComponent compileArgs block inverse b).locals = b.locals ∧
    (OpcodeBuilder.invokeComponent compileArgs block inverse b).program.opcodes.map (·.name)
      = b.program.opcodes.map (·.name) ++
        ([.SetComponentState, .PushBlock, .PushBlock] ++ argCode.map (·.name) ++
         [.PushDynamicScope, .PushComponentArgs, .CreateComponent,
          .RegisterComponentDestructor, .BeginComponentTransaction,
          .GetComponentSelf, .GetComponentLayout, .InvokeDynamic,
          .DidCreateElement, .DidRenderLayout, .PopScope, .PopDynamicScope,
          .CommitComponentTransaction]) ∧
    (OpcodeBuilder.invokeComponent compileArgs block inverse b).program.opcodes[
        b.program.opcodes.length]? =
      some ⟨.SetComponentState, some b.locals, some 0, some 0⟩ := by
  obtain ⟨i1, hi1n, hi1, hl1⟩ := pushBlock_shape
    (b.localReg.1.push ⟨.SetComponentState, some b.locals, some 0, some 0⟩) block
  obtain ⟨i2, hi2n, hi2, hl2⟩ := pushBlock_shape
    ((b.localReg.1.push ⟨.SetComponentState, some b.locals, some 0, some 0⟩).pushBlock
      block) inverse
  obtain ⟨ha1, ha2⟩ := hargs
    (((b.localReg.1.push ⟨.SetComponentState, some b.locals, some 0, some 0⟩).pushBlock
      block).pushBlock inverse)
  have hopc : (OpcodeBuilder.invokeComponent compileArgs block inverse b).program.opcodes
      = b.program.opcodes ++
        (⟨.SetComponentState, some b.locals, some 0, some 0⟩ :: i1 :: i2 :: (argCode ++
          (⟨.PushDynamicScope, some 0, some 0, some 0⟩ ::
           ⟨.PushComponentArgs, some 0,
             some (compileArgs (((b.localReg.1.push ⟨.SetComponentState, some b.locals,
               some 0, some 0⟩).pushBlock block).pushBlock inverse)).2,
             some ((compileArgs (((b.localReg.1.push ⟨.SetComponentState, some b.locals,
               some 0, some 0⟩).pushBlock block).pushBlock
                 inverse)).1.constants.others + 1 : Nat)⟩ ::
           ⟨.CreateComponent, some 1, some b.locals, some 0⟩ ::
           ⟨.RegisterComponentDestructor, some b.locals, some 0, some 0⟩ ::
           ⟨.BeginComponentTransaction, some 0, some 0, some 0⟩ ::
           ⟨.GetComponentSelf, some b.locals, some 0, some 0⟩ ::
           ⟨.GetComponentLayout, some b.locals, some 0, some 0⟩ ::
           ⟨.InvokeDynamic,
             some ((compileArgs (((b.localReg.1.push ⟨.SetComponentState, some b.locals,
               some 0, some 0⟩).pushBlock block).pushBlock
                 inverse)).1.constants.others + 1 + 1 : Nat), some 0, some 0⟩ ::
           ⟨.DidCreateElement, some b.locals, some 0, some 0⟩ ::
           ⟨.DidRenderLayout, some b.locals, some 0, some 0⟩ ::
           ⟨.PopScope, some 0, some 0, some 0⟩ ::
           ⟨.PopDynamicScope, some 0, some 0, some 0⟩ ::
           [⟨.CommitComponentTransaction, some 0, some 0, some 0⟩]))) := by
    unfold OpcodeBuilder.invokeComponent
    simp only [BasicOpcodeBuilder.releaseLocal, BasicOpcodeBuilder.commitComponentTransaction,
      BasicOpcodeBuilder.popDynamicScope, BasicOpcodeBuilder.popScope,
      BasicOpcodeBuilder.didRenderLayout, BasicOpcodeBuilder.didCreateElement,
      BasicOpcodeBuilder.invokeDynamic, BasicOpcodeBuilder.getComponentLayout,
      BasicOpcodeBuilder.getComponentSelf, BasicOpcodeBuilder.beginComponentTransaction,
      BasicOpcodeBuilder.registerComponentDestructor, BasicOpcodeBuilder.createComponent,
      BasicOpcodeBuilder.pushComponentArgs, BasicOpcodeBuilder.pushDynamicScope,
      BasicOpcodeBuilder.setComponentState, localReg_snd,
      Constants.other, push_opcodes, push_constants]
    rw [ha1, hi2, hi1]
    simp only [push_opcodes, localReg_opcodes]
    simp
  have hloc : (OpcodeBuilder.invokeComponent compileArgs block inverse b).locals
      = b.locals := by
    unfold OpcodeBuilder.invokeComponent
    simp only [BasicOpcodeBuilder.releaseLocal, BasicOpcodeBuilder.commitComponentTransaction,
      BasicOpcodeBuilder.popDynamicScope, BasicOpcodeBuilder.popScope,
      BasicOpcodeBuilder.didRenderLayout, BasicOpcodeBuilder.didCreateElement,
      BasicOpcodeBuilder.invokeDynamic, BasicOpcodeBuilder.getComponentLayout,
      BasicOpcodeBuilder.getComponentSelf, BasicOpcodeBuilder.beginComponentTransaction,
      BasicOpcodeBuilder.registerComponentDestructor, BasicOpcodeBuilder.createComponent,
      BasicOpcodeBuilder.pushComponentArgs, BasicOpcodeBuilder.pushDynamicScope,
      BasicOpcodeBuilder.setComponentState, localReg_snd,
      Constants.other, BasicOpcodeBuilder.push_locals]
    rw [ha2, hl2, hl1]
    simp only [BasicOpcodeBuilder.push_locals, localReg_locals]
    omega
  refine ⟨hloc, ?_, ?_⟩
  · rw [hopc]
    simp [hi1n, hi2n]
  · rw [hopc, List.getElem?_append_right (le_refl _), Nat.sub_self]
    rfl

theorem C5_invoke_component_protocol_witness :
    (OpcodeBuilder.invokeComponent (fun s => (s, 0)) none none
      (BasicOpcodeBuilder.init {} {})).locals = (BasicOpcodeBuilder.init {} {}).locals ∧
    (OpcodeBuilder.invokeComponent (fun s => (s, 0)) none none
        (BasicOpcodeBuilder.init {} {})).program.opcodes.map (·.name)
      = (BasicOpcodeBuilder.init {} {}).program.opcodes.map (·.name) ++
        ([.SetComponentState, .PushBlock, .PushBlock] ++
          ([] : List Instr).map (·.name) ++
         [.PushDynamicScope, .PushComponentArgs, .CreateComponent,
          .RegisterComponentDestructor, .BeginComponentTransaction,
          .GetComponentSelf, .GetComponentLayout, .InvokeDynamic,
          .DidCreateElement, .DidRenderLayout, .PopScope, .PopDynamicScope,
          .CommitComponentTransaction]) ∧
    (OpcodeBuilder.invokeComponent (fun s => (s, 0)) none none
        (BasicOpcodeBuilder.init {} {})).program.opcodes[
        (BasicOpcodeBuilder.init {} {}).program.opcodes.length]? =
      some ⟨.SetComponentState, some (BasicOpcodeBuilder.init {} {}).locals,
        some 0, some 0⟩ :=
  C5_invoke_component_protocol (fun s => (s, 0)) none none (BasicOpcodeBuilder.init {} {})
    [] (fun s => ⟨by simp, rfl⟩)

/-- C1: Convergence — for every template and every pair of contexts,
rehydrating the Create-mode output produced under the first context against
the second context yields a final tree structurally identical (tags,
attributes, text — i.e. equal after erasing comment markers) to a fresh
Create-mode render under the second context, whatever removed-node count the
pass reports. -/
theorem C1_convergence (t : Tmpl) (c1 c2 : Ctx) :
    strip (rehydrateTop t c2 (create t c1)).1 = strip (create t c2) :=
  strip_rehydrate t c2 (create t c1)

/-- C2: Idempotent rehydrate — rehydrating Create-mode output against the
same template and context reports exactly zero removed nodes and yields a
tree structurally identical (tags, attributes, text) to a fresh Create-mode
render. -/
theorem C2_idempotent_rehydrate (t : Tmpl) (c : Ctx) :
    (rehydrateTop t c (create t c)).2 = 0 ∧
    strip (rehydrateTop t c (create t c)).1 = strip (create t c) := by
  obtain ⟨h1, h2⟩ := rehydrate_create t c []
  rw [List.append_nil] at h1 h2
  constructor
  · show (rehydrate t c (create t c)).2.1 + (rehydrate t c (create t c)).2.2.length = 0
    rw [h1, h2]
    rfl
  · exact strip_rehydrate t c (create t c)

/-- C9: the template `{{content}}` server-rendered with content `"hello"`
and rehydrated with content `"goodbye"` adopts the existing text node and
repairs its value in place: the final rendered text is `"goodbye"` and the
pass reports exactly zero removed nodes. -/
theorem C9_mismatched_text_nodes :
    rehydrateTop (.curly "content") [("content", .s "goodbye")]
        (create (.curly "content") [("content", .s "hello")])
      = ([.text "goodbye"], 0) := by
  rfl

end Glimmer
